import Mathlib

/-!
Shallow embedding of the goap-race grid editor core
(`src/game_world/racetrack.py` and `src/game_world/track_builder.py`).

Layers are numpy 2-D arrays of machine integers; we model a layer as a
shape (`rows`, `cols`) together with a total data function `ℕ → ℕ → ℤ`.
numpy's elementwise `&` / `|` on integer arrays are two's-complement
bitwise operations, modelled by `Int.land` / `Int.lor`.
-/

namespace GoapRace

/-- A 2-D integer array layer (a numpy `ndarray`). -/
@[ext]
structure Array2 where
  rows : ℕ
  cols : ℕ
  data : ℕ → ℕ → ℤ

/-- Python `ndarray.shape`. -/
def Array2.shape (a : Array2) : ℕ × ℕ :=
  (a.rows, a.cols)

/-- Single-element assignment `a[r, c] = v`. -/
def Array2.set (a : Array2) (r c : ℕ) (v : ℤ) : Array2 :=
  { a with data := fun i j => if i = r ∧ j = c then v else a.data i j }

/-- Python `np.zeros` / `np.ones`-style constant layer. -/
def Array2.const (rows cols : ℕ) (v : ℤ) : Array2 :=
  ⟨rows, cols, fun _ _ => v⟩

/-- Python class `RaceTrack` (racetrack.py): four layers, target, spawn and the screen size.
`__init__` raises unless walls, active and buttons agree in shape, so every
constructed instance carries that fact. -/
structure RaceTrack where
  walls : Array2
  active : Array2
  buttons : Array2
  colors : Array2
  target : ℤ × ℤ
  spawn : ℤ × ℤ
  screen_size : ℕ × ℕ
  hshape : walls.shape = active.shape ∧ active.shape = buttons.shape

/-- Python `RaceTrack.__init__`: checks `walls.shape == active.shape == buttons.shape`
(and only those three layers) before storing the fields. -/
def RaceTrack.construct (walls active buttons colors : Array2) (target spawn : ℤ × ℤ)
    (screen_size : ℕ × ℕ) : Except String RaceTrack :=
  if h : walls.shape = active.shape ∧ active.shape = buttons.shape then
    .ok ⟨walls, active, buttons, colors, target, spawn, screen_size, h⟩
  else
    .error "All map layers must be same shape."

/-- The dictionary `colors_basic` built in `RaceTrack.__init__` (lines 29-38). -/
def colors_basic : List (ℤ × String) :=
  [(0, "#ffffff"), (1, "#000000"), (2, "#d20000"), (3, "#de9f00"),
   (4, "#00AE00"), (5, "#0000cd"), (6, "#8b008b"), (7, "#739F9F")]

/-- Python `self.color_scheme`: palette lookup by color index. -/
def color_scheme (i : ℤ) : Option String :=
  colors_basic.lookup i

/-- The elementwise value whose nonzeroness `find_wall_locations_np` tests:
`self.walls.astype(int) & color_mask & active_mask`, where each mask is the
0/1 result of an elementwise comparison (or all-ones when the filter is
absent). numpy's `&` is bitwise and, hence `Int.land`. -/
def wall_mask (t : RaceTrack) (color : Option ℤ) (active : Option Bool) (r c : ℕ) : ℤ :=
  Int.land
    (Int.land (t.walls.data r c)
      (match color with
       | some col => if t.colors.data r c = col then 1 else 0
       | none => 1))
    (match active with
     | some a => if t.active.data r c = (if a then 1 else 0) then 1 else 0
     | none => 1)

/-- Python `RaceTrack.find_wall_locations` (via `find_wall_locations_np` and
`np.where`): the set of in-range cells where the masked walls array is
nonzero. -/
def RaceTrack.find_wall_locations (t : RaceTrack) (color : Option ℤ) (active : Option Bool) :
    Finset (ℕ × ℕ) :=
  (Finset.range t.walls.rows ×ˢ Finset.range t.walls.cols).filter
    (fun p => wall_mask t color active p.1 p.2 ≠ 0)

/-- Python `RaceTrack.find_buttons`: `np.where(self.buttons.astype(int) & color_mask)`. -/
def RaceTrack.find_buttons (t : RaceTrack) (color : Option ℤ) : Finset (ℕ × ℕ) :=
  (Finset.range t.buttons.rows ×ˢ Finset.range t.buttons.cols).filter
    (fun p =>
      Int.land (t.buttons.data p.1 p.2)
        (match color with
         | some col => if t.colors.data p.1 p.2 = col then (1 : ℤ) else 0
         | none => 1) ≠ 0)

/-- Python `RaceTrack.find_traversable_cells`:
`np.where((self.walls == 0).astype(int) | (1 - self.active).astype(int))`. -/
def RaceTrack.find_traversable_cells (t : RaceTrack) : Finset (ℕ × ℕ) :=
  (Finset.range t.walls.rows ×ˢ Finset.range t.walls.cols).filter
    (fun p =>
      Int.lor (if t.walls.data p.1 p.2 = 0 then 1 else 0) (1 - t.active.data p.1 p.2) ≠ 0)

/-- Python `RaceTrack.toggle`: `self.active[idx] = 1 - self.active[idx]` where `idx`
is `find_wall_locations_np(color)` (color filter only, no active filter). -/
def RaceTrack.toggle (t : RaceTrack) (color : ℤ) : RaceTrack :=
  { t with
    active :=
      { t.active with
        data := fun r c =>
          if (r, c) ∈ t.find_wall_locations (some color) none then
            1 - t.active.data r c
          else
            t.active.data r c } }

/-- The 7-tuple pickled by `RaceTrack.save` and consumed by `load_track`. -/
structure SaveData where
  walls : Array2
  active : Array2
  buttons : Array2
  colors : Array2
  target : ℤ × ℤ
  spawn : ℤ × ℤ
  screen_size : ℕ × ℕ

/-- Python `RaceTrack.save`: the record written to disk, field for field. -/
def RaceTrack.save (t : RaceTrack) : SaveData :=
  ⟨t.walls, t.active, t.buttons, t.colors, t.target, t.spawn, t.screen_size⟩

/-- Modelled from the spec: the failures of the external persistence facility
(`open` / `pickle.load`, outside this repository) — a missing file or a
corrupt record surface as a `PersistenceError`. -/
inductive PersistenceError where
  | missingFile
  | corruptRecord

/-- What `load_track` can raise: a propagated persistence failure, or the
constructor's shape error. -/
inductive LoadError where
  | persistence (e : PersistenceError)
  | shapeMismatch (msg : String)

/-- Python `load_track`: read and unpickle the record (failures propagate untouched,
there is no try/except), then call `RaceTrack(*data)`. -/
def load_track (src : Except PersistenceError SaveData) : Except LoadError RaceTrack :=
  match src with
  | .error e => .error (.persistence e)
  | .ok d =>
    match RaceTrack.construct d.walls d.active d.buttons d.colors d.target d.spawn
        d.screen_size with
    | .ok t => .ok t
    | .error msg => .error (.shapeMismatch msg)

/-- Python assignment `track = load_track(...)`: when the load raises, the
assignment never happens and the current track binding is untouched. -/
def load_into (current : RaceTrack) (src : Except PersistenceError SaveData) : RaceTrack :=
  match load_track src with
  | .ok t => t
  | .error _ => current

/-- Python `blank_track`: all-zero walls/buttons/colors, all-ones active, target at
the bottom-right corner, spawn at the origin. Its `n_colors` parameter is
accepted and never read. -/
def blank_track (grid_size : ℕ × ℕ) (screen_size : ℕ × ℕ) (n_colors : ℤ) :
    Except String RaceTrack :=
  RaceTrack.construct
    (Array2.const grid_size.1 grid_size.2 0)
    (Array2.const grid_size.1 grid_size.2 1)
    (Array2.const grid_size.1 grid_size.2 0)
    (Array2.const grid_size.1 grid_size.2 0)
    ((grid_size.1 : ℤ) - 1, (grid_size.2 : ℤ) - 1)
    (0, 0)
    screen_size

/-- One primitive draw call issued by `RaceTrack.render`. Geometry is kept
exactly (rationals); the palette entry looked up for the cell is recorded as
it comes out of `color_scheme`. -/
inductive RenderCmd where
  | rect (color : Option String) (x y w h : ℚ) (border : ℤ)
  | circle (color : Option String) (x y radius : ℚ)
  | star (x y w h : ℚ)
  | triangle (x y : ℚ)
  | gridline (x y w h : ℚ)

/-- The draw calls `RaceTrack.render` issues for one cell, in source order:
wall rectangle / button circle / target star (first match only), then the
spawn triangle independently, then the 2px black cell border. -/
def renderCell (t : RaceTrack) (w h : ℚ) (row col : ℕ) : List RenderCmd :=
  let x : ℚ := col * w
  let y : ℚ := row * h
  let activeV := t.active.data row col
  let wall := t.walls.data row col
  let color_type := t.colors.data row col
  let button := t.buttons.data row col
  let color := color_scheme color_type
  (if wall ≠ 0 then
    [RenderCmd.rect color x y (w + 1) (h + 1) (if activeV ≠ 0 then 0 else Int.floor (w / 5))]
  else if button ≠ 0 then
    [RenderCmd.circle color (x + w / 2) (y + h / 2) (2 / 5 * min w h)]
  else if ((row : ℤ), (col : ℤ)) = t.target then
    [RenderCmd.star (x + w / 10) (y + h / 10) (4 / 5 * w) (4 / 5 * h)]
  else []) ++
  (if ((row : ℤ), (col : ℤ)) = t.spawn then
    [RenderCmd.triangle (x + w / 10) (y + h / 10)]
  else []) ++
  [RenderCmd.gridline x y (w + 1) (h + 1)]

/-- Python `RaceTrack.render`: cell size `(width / cols, height / rows)`, then the
cells' draw calls in row-major order. A pure function of the track's fields
and the requested dimensions. -/
def RaceTrack.render (t : RaceTrack) (width height : ℕ) : List RenderCmd :=
  let w : ℚ := (width : ℚ) / t.walls.cols
  let h : ℚ := (height : ℚ) / t.walls.rows
  ((List.range t.walls.rows).map
    (fun row => ((List.range t.walls.cols).map (fun col => renderCell t w h row col)).flatten)).flatten

/-- The four editor tools of `track_builder.py` (`selected_kind`). -/
inductive EditKind where
  | wall
  | button
  | target
  | spawn

/-- The body of the `match selected_kind` statement in `click_track` for one in-range,
unhandled cell `(r, c)`. -/
def edit_cell (t : RaceTrack) (selected_color : ℤ) (kind : EditKind) (shift_held : Bool)
    (r c : ℕ) : RaceTrack :=
  match kind with
  | .wall =>
    if selected_color = 0 then
      { t with
        walls := t.walls.set r c 0,
        colors := t.colors.set r c selected_color,
        buttons := t.buttons.set r c 0 }
    else
      { t with
        walls := t.walls.set r c 1,
        active := t.active.set r c (1 - (if shift_held then 1 else 0)),
        colors := t.colors.set r c selected_color,
        buttons := t.buttons.set r c 0 }
  | .button =>
    { t with
      buttons := t.buttons.set r c (if selected_color = 0 then 0 else 1),
      walls := t.walls.set r c 0,
      colors := t.colors.set r c selected_color,
      active := t.active.set r c 1 }
  | .target =>
    { t with
      target := ((r : ℤ), (c : ℤ)),
      walls := t.walls.set r c 0,
      buttons := t.buttons.set r c 0,
      colors := t.colors.set r c 0,
      active := t.active.set r c 1 }
  | .spawn =>
    { t with
      spawn := ((r : ℤ), (c : ℤ)),
      walls := t.walls.set r c 0,
      buttons := t.buttons.set r c 0,
      colors := t.colors.set r c 0,
      active := t.active.set r c 1 }

/-- Python `range(center - cursor_size + 1, center + cursor_size)` as a list of
integers. -/
def brush_range (center : ℤ) (cursor_size : ℕ) : List ℤ :=
  (List.range (2 * cursor_size - 1)).map (fun i => center - cursor_size + 1 + i)

/-- One step of the double loop in `click_track`: skip a cell that is out of the
grid or already handled in this gesture, otherwise record it and apply the
typed edit. -/
def click_step (selected_color : ℤ) (kind : EditKind) (shift_held : Bool)
    (rows cols : ℕ) (acc : RaceTrack × Finset (ℤ × ℤ)) (rc : ℤ × ℤ) :
    RaceTrack × Finset (ℤ × ℤ) :=
  if 0 ≤ rc.1 ∧ rc.1 < (rows : ℤ) ∧ 0 ≤ rc.2 ∧ rc.2 < (cols : ℤ) ∧ rc ∉ acc.2 then
    (edit_cell acc.1 selected_color kind shift_held rc.1.toNat rc.2.toNat, insert rc acc.2)
  else
    acc

/-- Python `click_track` (track_builder.py lines 47-99), entered with the grid cell
`(row, col)` the pointer maps to: when the button is down, sweep the square
brush around `(row, col)`, editing each in-range cell not yet handled in the
current gesture. Returns the updated track and handled-points set. -/
def click_track (t : RaceTrack) (selected_color : ℤ) (kind : EditKind) (pressed : Bool)
    (row col : ℤ) (cursor_size : ℕ) (handled_points : Finset (ℤ × ℤ)) (shift_held : Bool) :
    RaceTrack × Finset (ℤ × ℤ) :=
  if pressed then
    ((brush_range row cursor_size).flatMap
        (fun r => (brush_range col cursor_size).map (fun c => (r, c)))).foldl
      (click_step selected_color kind shift_held t.walls.rows t.walls.cols)
      (t, handled_points)
  else
    (t, handled_points)

/-- The wall/button exclusivity invariant of the spec's data model: no cell
is simultaneously a wall and a button. -/
def exclusive (t : RaceTrack) : Prop :=
  ∀ r c : ℕ, ¬(t.walls.data r c ≠ 0 ∧ t.buttons.data r c ≠ 0)

/-- A small concrete track: a color-1 active wall at (0,0), a color-2
inactive wall at (1,1), a button at (1,0). -/
def sampleTrack : RaceTrack :=
  { walls := ⟨2, 2, fun r c => if r = 0 ∧ c = 0 then 1 else if r = 1 ∧ c = 1 then 1 else 0⟩
    active := ⟨2, 2, fun r c => if r = 1 ∧ c = 1 then 0 else 1⟩
    buttons := ⟨2, 2, fun r c => if r = 1 ∧ c = 0 then 1 else 0⟩
    colors := ⟨2, 2, fun r c => if r = 0 ∧ c = 0 then 1 else if r = 1 ∧ c = 1 then 2 else 0⟩
    target := (0, 1)
    spawn := (0, 0)
    screen_size := (10, 10)
    hshape := ⟨rfl, rfl⟩ }

/-- A 1×1 track whose single cell stores the wall value 2. -/
def evenWallTrack : RaceTrack :=
  { walls := ⟨1, 1, fun _ _ => 2⟩
    active := ⟨1, 1, fun _ _ => 1⟩
    buttons := ⟨1, 1, fun _ _ => 0⟩
    colors := ⟨1, 1, fun _ _ => 0⟩
    target := (0, 0)
    spawn := (0, 0)
    screen_size := (10, 10)
    hshape := ⟨rfl, rfl⟩ }

/-- A 1×1 track whose single cell is simultaneously an active wall and a
button (the storage format does not forbid this). -/
def wallButtonTrack : RaceTrack :=
  { walls := ⟨1, 1, fun _ _ => 1⟩
    active := ⟨1, 1, fun _ _ => 1⟩
    buttons := ⟨1, 1, fun _ _ => 1⟩
    colors := ⟨1, 1, fun _ _ => 0⟩
    target := (0, 0)
    spawn := (0, 0)
    screen_size := (10, 10)
    hshape := ⟨rfl, rfl⟩ }

/-- A blank 2×2 track (all walls/buttons/colors zero, all cells active). -/
def blankTrack2 : RaceTrack :=
  { walls := Array2.const 2 2 0
    active := Array2.const 2 2 1
    buttons := Array2.const 2 2 0
    colors := Array2.const 2 2 0
    target := (1, 1)
    spawn := (0, 0)
    screen_size := (10, 10)
    hshape := ⟨rfl, rfl⟩ }

/-- A 1×1 all-zero layer. -/
def unit11 : Array2 :=
  ⟨1, 1, fun _ _ => 0⟩

/-- A 1×2 all-zero layer (its shape differs from `unit11`). -/
def wideColors : Array2 :=
  ⟨1, 2, fun _ _ => 0⟩

/-! ### Helper lemmas about the bitwise operations -/

theorem nat_ldiff_zero_left (m : ℕ) : Nat.ldiff 0 m = 0 := by
  apply Nat.eq_of_testBit_eq
  intro i
  simp [Nat.testBit_ldiff]

theorem nat_ldiff_one_left (m : ℕ) : Nat.ldiff 1 m = 1 - m % 2 := by
  apply Nat.eq_of_testBit_eq
  intro i
  rw [Nat.testBit_ldiff]
  cases i with
  | zero =>
    simp only [Nat.testBit_zero]
    rcases Nat.mod_two_eq_zero_or_one m with h | h <;> simp [h]
  | succ i =>
    simp only [Nat.testBit_succ]
    have h1 : (1 : ℕ) / 2 = 0 := by norm_num
    have h2 : (1 - m % 2) / 2 = 0 := by omega
    rw [h1, h2]
    simp

theorem int_land_zero (w : ℤ) : Int.land w 0 = 0 := by
  cases w with
  | ofNat n =>
    show ((n &&& 0 : ℕ) : ℤ) = 0
    simp
  | negSucc n =>
    show ((Nat.ldiff 0 n : ℕ) : ℤ) = 0
    simp [nat_ldiff_zero_left]

theorem int_zero_land (w : ℤ) : Int.land 0 w = 0 := by
  cases w with
  | ofNat n =>
    show ((0 &&& n : ℕ) : ℤ) = 0
    simp
  | negSucc n =>
    show ((Nat.ldiff 0 n : ℕ) : ℤ) = 0
    simp [nat_ldiff_zero_left]

theorem int_land_one (w : ℤ) : Int.land w 1 = w % 2 := by
  cases w with
  | ofNat n =>
    show ((n &&& 1 : ℕ) : ℤ) = (n : ℤ) % 2
    rw [Nat.and_one_is_mod]
    omega
  | negSucc n =>
    show ((Nat.ldiff 1 n : ℕ) : ℤ) = Int.negSucc n % 2
    rw [nat_ldiff_one_left, Int.negSucc_eq]
    omega

theorem nat_lor_eq_zero_iff (m n : ℕ) : m ||| n = 0 ↔ m = 0 ∧ n = 0 := by
  constructor
  · intro h
    have hbit : ∀ i, (Nat.testBit m i || Nat.testBit n i) = false := by
      intro i
      rw [← Nat.testBit_or, h]
      simp
    constructor
    · apply Nat.eq_of_testBit_eq
      intro i
      have hi := hbit i
      simp only [Bool.or_eq_false_iff] at hi
      simp [hi.1]
    · apply Nat.eq_of_testBit_eq
      intro i
      have hi := hbit i
      simp only [Bool.or_eq_false_iff] at hi
      simp [hi.2]
  · rintro ⟨rfl, rfl⟩
    rfl

theorem int_lor_eq_zero_iff (x y : ℤ) : Int.lor x y = 0 ↔ x = 0 ∧ y = 0 := by
  cases x with
  | ofNat m =>
    cases y with
    | ofNat n =>
      show ((m ||| n : ℕ) : ℤ) = 0 ↔ ((m : ℤ) = 0 ∧ (n : ℤ) = 0)
      simp [nat_lor_eq_zero_iff]
    | negSucc n =>
      show Int.negSucc (Nat.ldiff n m) = 0 ↔ _
      simp
  | negSucc m =>
    cases y with
    | ofNat n =>
      show Int.negSucc (Nat.ldiff m n) = 0 ↔ _
      simp
    | negSucc n =>
      show Int.negSucc (m &&& n) = 0 ↔ _
      simp

theorem land_mask_ne_zero (w c a : ℤ) (hc : c = 0 ∨ c = 1) (ha : a = 0 ∨ a = 1) :
    Int.land (Int.land w c) a ≠ 0 ↔ w % 2 = 1 ∧ c = 1 ∧ a = 1 := by
  rcases hc with rfl | rfl
  · simp [int_land_zero, int_zero_land]
  · rcases ha with rfl | rfl
    · simp [int_land_zero]
    · rw [int_land_one, int_land_one]
      omega

/-! ### Membership characterizations and structural helpers -/

theorem RaceTrack.ext_fields {t u : RaceTrack} (hw : t.walls = u.walls)
    (ha : t.active = u.active) (hb : t.buttons = u.buttons) (hc : t.colors = u.colors)
    (ht : t.target = u.target) (hs : t.spawn = u.spawn)
    (hss : t.screen_size = u.screen_size) : t = u := by
  obtain ⟨w1, a1, b1, c1, t1, s1, ss1, h1⟩ := t
  obtain ⟨w2, a2, b2, c2, t2, s2, ss2, h2⟩ := u
  dsimp only at hw ha hb hc ht hs hss
  subst hw
  subst ha
  subst hb
  subst hc
  subst ht
  subst hs
  subst hss
  rfl

theorem walls_dims_eq_buttons (t : RaceTrack) :
    t.walls.rows = t.buttons.rows ∧ t.walls.cols = t.buttons.cols := by
  have h : t.walls.shape = t.buttons.shape := t.hshape.1.trans t.hshape.2
  exact ⟨congrArg Prod.fst h, congrArg Prod.snd h⟩

theorem mem_find_wall_locations (t : RaceTrack) (cf : Option ℤ) (af : Option Bool)
    (p : ℕ × ℕ) :
    p ∈ t.find_wall_locations cf af ↔
      p.1 < t.walls.rows ∧ p.2 < t.walls.cols ∧ wall_mask t cf af p.1 p.2 ≠ 0 := by
  simp [RaceTrack.find_wall_locations, Finset.mem_filter, Finset.mem_product, and_assoc]

theorem mem_find_buttons (t : RaceTrack) (cf : Option ℤ) (p : ℕ × ℕ) :
    p ∈ t.find_buttons cf ↔
      p.1 < t.buttons.rows ∧ p.2 < t.buttons.cols ∧
      Int.land (t.buttons.data p.1 p.2)
        (match cf with
         | some col => if t.colors.data p.1 p.2 = col then (1 : ℤ) else 0
         | none => 1) ≠ 0 := by
  simp [RaceTrack.find_buttons, Finset.mem_filter, Finset.mem_product, and_assoc]

theorem mem_find_traversable_cells (t : RaceTrack) (p : ℕ × ℕ) :
    p ∈ t.find_traversable_cells ↔
      p.1 < t.walls.rows ∧ p.2 < t.walls.cols ∧
      (t.walls.data p.1 p.2 = 0 ∨ t.active.data p.1 p.2 ≠ 1) := by
  simp only [RaceTrack.find_traversable_cells, Finset.mem_filter, Finset.mem_product,
    Finset.mem_range, and_assoc]
  refine and_congr_right fun _ => and_congr_right fun _ => ?_
  rw [ne_eq, int_lor_eq_zero_iff]
  rcases eq_or_ne (t.walls.data p.1 p.2) 0 with h | h <;> simp [h] <;> omega

theorem edit_cell_clears_other (t : RaceTrack) (color : ℤ) (kind : EditKind) (shift : Bool)
    (r c : ℕ) :
    (edit_cell t color kind shift r c).walls.data r c = 0 ∨
    (edit_cell t color kind shift r c).buttons.data r c = 0 := by
  cases kind
  · by_cases h0 : color = 0 <;> simp [edit_cell, h0, Array2.set]
  · simp [edit_cell, Array2.set]
  · simp [edit_cell, Array2.set]
  · simp [edit_cell, Array2.set]

theorem edit_cell_untouched (t : RaceTrack) (color : ℤ) (kind : EditKind) (shift : Bool)
    (r c i j : ℕ) (hij : ¬(i = r ∧ j = c)) :
    (edit_cell t color kind shift r c).walls.data i j = t.walls.data i j ∧
    (edit_cell t color kind shift r c).buttons.data i j = t.buttons.data i j := by
  cases kind
  · by_cases h0 : color = 0 <;> simp [edit_cell, h0, Array2.set, hij]
  · simp [edit_cell, Array2.set, hij]
  · simp [edit_cell, Array2.set, hij]
  · simp [edit_cell, Array2.set, hij]

theorem edit_cell_preserves_exclusive {t : RaceTrack} (hex : exclusive t) (color : ℤ)
    (kind : EditKind) (shift : Bool) (r c : ℕ) :
    exclusive (edit_cell t color kind shift r c) := by
  intro i j
  by_cases hij : i = r ∧ j = c
  · obtain ⟨rfl, rfl⟩ := hij
    have h := edit_cell_clears_other t color kind shift i j
    tauto
  · have h := edit_cell_untouched t color kind shift r c i j hij
    rw [h.1, h.2]
    exact hex i j

theorem click_step_preserves_exclusive (color : ℤ) (kind : EditKind) (shift : Bool)
    (rows cols : ℕ) (acc : RaceTrack × Finset (ℤ × ℤ)) (rc : ℤ × ℤ)
    (hex : exclusive acc.1) :
    exclusive (click_step color kind shift rows cols acc rc).1 := by
  unfold click_step
  split_ifs with h
  · exact edit_cell_preserves_exclusive hex _ _ _ _ _
  · exact hex

theorem foldl_click_step_preserves (color : ℤ) (kind : EditKind) (shift : Bool)
    (rows cols : ℕ) (l : List (ℤ × ℤ)) (acc : RaceTrack × Finset (ℤ × ℤ))
    (hex : exclusive acc.1) :
    exclusive ((l.foldl (click_step color kind shift rows cols) acc).1) := by
  induction l generalizing acc with
  | nil => exact hex
  | cons x xs ih =>
    exact ih _ (click_step_preserves_exclusive color kind shift rows cols acc x hex)

/-! ### Claim theorems -/

/-- C1: after `toggle(c)`, every cell returned by `findWalls(c)` (no active
filter) has its active flag inverted (`1 - old`); every cell not in
`findWalls(c)` — in particular every cell whose color differs from `c` — has
its active flag unchanged; and the walls, buttons, colors, spawn and target
fields are unchanged by `toggle`. -/
theorem toggle_inverts_exactly_matched (t : RaceTrack) (c : ℤ) :
    (∀ p ∈ t.find_wall_locations (some c) none,
        (t.toggle c).active.data p.1 p.2 = 1 - t.active.data p.1 p.2) ∧
    (∀ p : ℕ × ℕ, p ∉ t.find_wall_locations (some c) none →
        (t.toggle c).active.data p.1 p.2 = t.active.data p.1 p.2) ∧
    (∀ r c' : ℕ, t.colors.data r c' ≠ c →
        (t.toggle c).active.data r c' = t.active.data r c') ∧
    (t.toggle c).walls = t.walls ∧ (t.toggle c).buttons = t.buttons ∧
    (t.toggle c).colors = t.colors ∧ (t.toggle c).spawn = t.spawn ∧
    (t.toggle c).target = t.target := by
  refine ⟨?_, ?_, ?_, rfl, rfl, rfl, rfl, rfl⟩
  · intro p hp
    simp [RaceTrack.toggle, hp]
  · intro p hp
    simp [RaceTrack.toggle, hp]
  · intro r c' hne
    have hnot : ((r, c') : ℕ × ℕ) ∉ t.find_wall_locations (some c) none := by
      rw [mem_find_wall_locations]
      push_neg
      intro _ _
      simp [wall_mask, hne, int_land_zero, int_zero_land]
    simp [RaceTrack.toggle, hnot]

/-- C1 witness: on `sampleTrack`, the color-1 wall cell (0,0) is matched and
its active value is inverted. -/
theorem toggle_inverts_exactly_matched_witness :
    (0, 0) ∈ sampleTrack.find_wall_locations (some 1) none ∧
    (sampleTrack.toggle 1).active.data 0 0 = 1 - sampleTrack.active.data 0 0 :=
  ⟨by decide, (toggle_inverts_exactly_matched sampleTrack 1).1 (0, 0) (by decide)⟩

/-- C9: `toggle` is an involution — toggling the same color twice with no
intervening mutation restores the whole track state. -/
theorem toggle_involution (t : RaceTrack) (c : ℤ) : (t.toggle c).toggle c = t := by
  have hloc : (t.toggle c).find_wall_locations (some c) none
      = t.find_wall_locations (some c) none := rfl
  refine RaceTrack.ext_fields rfl ?_ rfl rfl rfl rfl rfl
  refine Array2.ext rfl rfl ?_
  funext r c'
  show (if (r, c') ∈ (t.toggle c).find_wall_locations (some c) none then
          1 - (t.toggle c).active.data r c'
        else (t.toggle c).active.data r c') = t.active.data r c'
  rw [hloc]
  by_cases hm : (r, c') ∈ t.find_wall_locations (some c) none
  · rw [if_pos hm]
    show 1 - (if (r, c') ∈ t.find_wall_locations (some c) none then
          1 - t.active.data r c' else t.active.data r c') = t.active.data r c'
    rw [if_pos hm]
    ring
  · rw [if_neg hm]
    show (if (r, c') ∈ t.find_wall_locations (some c) none then
          1 - t.active.data r c' else t.active.data r c') = t.active.data r c'
    rw [if_neg hm]

/-- C3 counterexample: on `evenWallTrack` the cell (0,0) stores the wall
value 2, which is nonzero, yet `findWalls` (no filters) does not return it —
because numpy `&` is bitwise and `2 &&& 1 = 0`. -/
theorem find_walls_misses_even_wall :
    evenWallTrack.walls.data 0 0 ≠ 0 ∧
    (0, 0) ∉ evenWallTrack.find_wall_locations none none := by
  constructor
  · decide
  · decide

/-- C3 amended: `findWalls(cf, af)` returns exactly the in-range cells whose
wall value is odd (lowest bit set — not merely nonzero), whose color equals
`cf` when that filter is present, and whose active value equals `af` (as
0/1) when that filter is present. -/
theorem find_walls_characterization (t : RaceTrack) (cf : Option ℤ) (af : Option Bool)
    (p : ℕ × ℕ) :
    p ∈ t.find_wall_locations cf af ↔
      p.1 < t.walls.rows ∧ p.2 < t.walls.cols ∧ t.walls.data p.1 p.2 % 2 = 1 ∧
      (∀ col ∈ cf, t.colors.data p.1 p.2 = col) ∧
      (∀ a ∈ af, t.active.data p.1 p.2 = (if a then 1 else 0)) := by
  rw [mem_find_wall_locations]
  refine and_congr_right fun _ => and_congr_right fun _ => ?_
  rcases cf with _ | col <;> rcases af with _ | a
  · rw [show wall_mask t none none p.1 p.2
        = Int.land (Int.land (t.walls.data p.1 p.2) 1) 1 from rfl]
    rw [land_mask_ne_zero _ _ _ (Or.inr rfl) (Or.inr rfl)]
    simp
  · rw [show wall_mask t none (some a) p.1 p.2
        = Int.land (Int.land (t.walls.data p.1 p.2) 1)
            (if t.active.data p.1 p.2 = (if a then 1 else 0) then 1 else 0) from rfl]
    rw [land_mask_ne_zero _ _ _ (Or.inr rfl) (by split_ifs <;> simp)]
    by_cases h : t.active.data p.1 p.2 = (if a then 1 else 0) <;> simp [h]
  · rw [show wall_mask t (some col) none p.1 p.2
        = Int.land (Int.land (t.walls.data p.1 p.2)
            (if t.colors.data p.1 p.2 = col then 1 else 0)) 1 from rfl]
    rw [land_mask_ne_zero _ _ _ (by split_ifs <;> simp) (Or.inr rfl)]
    by_cases h : t.colors.data p.1 p.2 = col <;> simp [h]
  · rw [show wall_mask t (some col) (some a) p.1 p.2
        = Int.land (Int.land (t.walls.data p.1 p.2)
            (if t.colors.data p.1 p.2 = col then 1 else 0))
            (if t.active.data p.1 p.2 = (if a then 1 else 0) then 1 else 0) from rfl]
    rw [land_mask_ne_zero _ _ _ (by split_ifs <;> simp) (by split_ifs <;> simp)]
    by_cases h : t.colors.data p.1 p.2 = col <;>
      by_cases h2 : t.active.data p.1 p.2 = (if a then 1 else 0) <;> simp [h, h2]

/-- C3 witness: on `sampleTrack` with color filter 1 and no active filter,
the characterization puts (0,0) in the result. -/
theorem find_walls_characterization_witness :
    (0, 0) ∈ sampleTrack.find_wall_locations (some 1) none :=
  (find_walls_characterization sampleTrack (some 1) none (0, 0)).mpr
    ⟨by decide, by decide, by decide,
     fun col hcol => by
       rw [Option.mem_def, Option.some_inj] at hcol
       subst hcol
       decide,
     fun a ha => by simp at ha⟩

/-- C4 counterexample: on `wallButtonTrack` — whose single cell is both an
active wall and a button, which the storage format permits —
`findTraversableCells` is not a superset of `findButtons`. -/
theorem traversable_not_superset_of_buttons :
    ¬ wallButtonTrack.find_buttons none ⊆ wallButtonTrack.find_traversable_cells := by
  intro h
  have hmem : (0, 0) ∈ wallButtonTrack.find_buttons none := by decide
  have := h hmem
  revert this
  decide

/-- C4 amended: `findTraversableCells` is exactly the in-range cells where
`walls == 0` OR `active != 1` (not `active == 0`: the code tests
`1 - active != 0`); it contains every in-range cell with `walls == 0`; it
excludes exactly the in-range cells with `walls != 0` and `active == 1`;
and it is a superset of `findButtons` provided no cell is simultaneously a
wall and a button (the data model's exclusivity invariant, which the storage
format itself does not enforce). -/
theorem traversable_characterization (t : RaceTrack) :
    (∀ p : ℕ × ℕ, p ∈ t.find_traversable_cells ↔
        p.1 < t.walls.rows ∧ p.2 < t.walls.cols ∧
        (t.walls.data p.1 p.2 = 0 ∨ t.active.data p.1 p.2 ≠ 1)) ∧
    (∀ p : ℕ × ℕ, p.1 < t.walls.rows → p.2 < t.walls.cols → t.walls.data p.1 p.2 = 0 →
        p ∈ t.find_traversable_cells) ∧
    (∀ p : ℕ × ℕ, p.1 < t.walls.rows → p.2 < t.walls.cols →
        (p ∉ t.find_traversable_cells ↔
          t.walls.data p.1 p.2 ≠ 0 ∧ t.active.data p.1 p.2 = 1)) ∧
    (exclusive t → t.find_buttons none ⊆ t.find_traversable_cells) := by
  refine ⟨mem_find_traversable_cells t, ?_, ?_, ?_⟩
  · intro p h1 h2 h0
    exact (mem_find_traversable_cells t p).mpr ⟨h1, h2, Or.inl h0⟩
  · intro p h1 h2
    rw [mem_find_traversable_cells]
    simp [h1, h2, not_or]
  · intro hex p hp
    rw [mem_find_buttons] at hp
    obtain ⟨h1, h2, hmask⟩ := hp
    have hbne : t.buttons.data p.1 p.2 ≠ 0 := by
      intro h0
      rw [h0, int_zero_land] at hmask
      exact hmask rfl
    have hwz : t.walls.data p.1 p.2 = 0 := by
      by_contra hw
      exact hex p.1 p.2 ⟨hw, hbne⟩
    obtain ⟨hr, hc⟩ := walls_dims_eq_buttons t
    exact (mem_find_traversable_cells t p).mpr
      ⟨hr ▸ h1, hc ▸ h2, Or.inl hwz⟩

/-- C4 witness: the blank track satisfies exclusivity, and the amended
superset conclusion holds on it. -/
theorem traversable_characterization_witness :
    exclusive blankTrack2 ∧
    blankTrack2.find_buttons none ⊆ blankTrack2.find_traversable_cells :=
  ⟨fun r c h => h.1 rfl,
   (traversable_characterization blankTrack2).2.2.2 (fun r c h => h.1 rfl)⟩

/-- C5: loading the record produced by `save` yields a track equal to the
original in all seven persisted fields, and rendering the loaded track at
any width and height yields the same draw calls as rendering the original. -/
theorem load_save_roundtrip (g : RaceTrack) :
    ∃ t : RaceTrack, load_track (.ok g.save) = .ok t ∧
      t.walls = g.walls ∧ t.active = g.active ∧ t.buttons = g.buttons ∧
      t.colors = g.colors ∧ t.target = g.target ∧ t.spawn = g.spawn ∧
      t.screen_size = g.screen_size ∧
      ∀ w h : ℕ, t.render w h = g.render w h := by
  refine ⟨g, ?_, rfl, rfl, rfl, rfl, rfl, rfl, rfl, fun w h => rfl⟩
  show (match RaceTrack.construct g.walls g.active g.buttons g.colors g.target g.spawn
        g.screen_size with
    | .ok t => (Except.ok t : Except LoadError RaceTrack)
    | .error msg => .error (.shapeMismatch msg)) = .ok g
  unfold RaceTrack.construct
  rw [dif_pos g.hshape]

/-- C6: a single editor edit (`click_track`, any tool, any color, any brush)
preserves the wall/button exclusivity invariant, and the per-cell edit always
clears at least one of the two kinds at the edited cell. -/
theorem click_track_preserves_exclusivity (t : RaceTrack) (color : ℤ) (kind : EditKind)
    (pressed : Bool) (row col : ℤ) (cursor_size : ℕ) (handled : Finset (ℤ × ℤ))
    (shift : Bool) (hex : exclusive t) :
    exclusive (click_track t color kind pressed row col cursor_size handled shift).1 ∧
    ∀ r c : ℕ, (edit_cell t color kind shift r c).walls.data r c = 0 ∨
      (edit_cell t color kind shift r c).buttons.data r c = 0 := by
  constructor
  · unfold click_track
    split_ifs
    · exact foldl_click_step_preserves color kind shift t.walls.rows t.walls.cols _ _ hex
    · exact hex
  · intro r c
    exact edit_cell_clears_other t color kind shift r c

/-- C6 witness: the blank track is exclusive and stays exclusive after a
wall edit at (0,0). -/
theorem click_track_preserves_exclusivity_witness :
    exclusive blankTrack2 ∧
    exclusive (click_track blankTrack2 1 EditKind.wall true 0 0 1 ∅ false).1 :=
  ⟨fun r c h => h.1 rfl,
   (click_track_preserves_exclusivity blankTrack2 1 EditKind.wall true 0 0 1 ∅ false
     (fun r c h => h.1 rfl)).1⟩

/-- C7 counterexample: the palette built in `__init__` has an eighth entry,
at index 7 (`"#739F9F"`), so it does not have exactly 7 entries indexed
0..6 and an index outside 0..6 does map to a palette entry. -/
theorem palette_has_eighth_entry :
    colors_basic.length = 8 ∧ color_scheme 7 = some "#739F9F" :=
  ⟨rfl, rfl⟩

/-- C7 amended: the fixed palette shared by walls and buttons has exactly 8
entries, indexed 0 through 7, with index 0 the default/no-color (white)
entry; no index outside 0..7 maps to a palette entry. -/
theorem palette_characterization :
    colors_basic.length = 8 ∧ color_scheme 0 = some "#ffffff" ∧
    ∀ i : ℤ, (color_scheme i).isSome = true ↔ 0 ≤ i ∧ i ≤ 7 := by
  refine ⟨rfl, rfl, fun i => ?_⟩
  show (colors_basic.lookup i).isSome = true ↔ 0 ≤ i ∧ i ≤ 7
  rw [List.lookup_isSome_iff]
  simp only [colors_basic, List.mem_cons, List.not_mem_nil, beq_iff_eq]
  constructor
  · rintro ⟨p, hp, rfl⟩
    rcases hp with rfl | rfl | rfl | rfl | rfl | rfl | rfl | rfl | h
    · omega
    · omega
    · omega
    · omega
    · omega
    · omega
    · omega
    · omega
    · simp at h
  · intro hi
    have h8 : i = 0 ∨ i = 1 ∨ i = 2 ∨ i = 3 ∨ i = 4 ∨ i = 5 ∨ i = 6 ∨ i = 7 := by omega
    rcases h8 with rfl | rfl | rfl | rfl | rfl | rfl | rfl | rfl
    · exact ⟨(0, "#ffffff"), by simp, rfl⟩
    · exact ⟨(1, "#000000"), by simp, rfl⟩
    · exact ⟨(2, "#d20000"), by simp, rfl⟩
    · exact ⟨(3, "#de9f00"), by simp, rfl⟩
    · exact ⟨(4, "#00AE00"), by simp, rfl⟩
    · exact ⟨(5, "#0000cd"), by simp, rfl⟩
    · exact ⟨(6, "#8b008b"), by simp, rfl⟩
    · exact ⟨(7, "#739F9F"), by simp, rfl⟩

/-- C8: a load whose source is missing or corrupt fails with the propagated
persistence error (`load_track` has no handler), and the current in-memory
track is left unmodified by the failed load. -/
theorem failed_load_propagates_and_preserves (current : RaceTrack) (e : PersistenceError) :
    load_track (.error e) = .error (.persistence e) ∧
    load_into current (.error e) = current :=
  ⟨rfl, rfl⟩

/-- C10: `blank_track` never reads `n_colors` — any two values give equal
results — and the result is the blank track: all-zero walls, buttons and
colors, all-ones active, target at (rows-1, cols-1), spawn at (0,0). -/
theorem blank_track_ignores_n_colors (grid_size screen_size : ℕ × ℕ) (n1 n2 : ℤ) :
    blank_track grid_size screen_size n1 = blank_track grid_size screen_size n2 ∧
    blank_track grid_size screen_size n1 =
      .ok { walls := Array2.const grid_size.1 grid_size.2 0
            active := Array2.const grid_size.1 grid_size.2 1
            buttons := Array2.const grid_size.1 grid_size.2 0
            colors := Array2.const grid_size.1 grid_size.2 0
            target := ((grid_size.1 : ℤ) - 1, (grid_size.2 : ℤ) - 1)
            spawn := (0, 0)
            screen_size := screen_size
            hshape := ⟨rfl, rfl⟩ } := by
  refine ⟨rfl, ?_⟩
  unfold blank_track RaceTrack.construct
  exact dif_pos ⟨rfl, rfl⟩

/-- C2: `__init__` compares only the shapes of walls, active and buttons —
a colors layer whose shape differs from the other three is accepted without
any error, contradicting both the claim and the constructor's own message
"All map layers must be same shape." -/
theorem construct_accepts_mismatched_colors :
    wideColors.shape ≠ unit11.shape ∧
    RaceTrack.construct unit11 unit11 unit11 wideColors (0, 0) (0, 0) (600, 900) =
      .ok ⟨unit11, unit11, unit11, wideColors, (0, 0), (0, 0), (600, 900), ⟨rfl, rfl⟩⟩ := by
  refine ⟨by decide, ?_⟩
  exact dif_pos ⟨rfl, rfl⟩

end GoapRace
